import Mathlib

/-!
# Notify: the client-side task store and notification scheduler of `src/App.js`

A shallow embedding of the state-changing code of the `App` component:

* the `new_task` / `delete_task` socket handlers (`setupWebSocket`),
* `scheduleNotification`,
* `fetchTasks`,
* `handleAddTask`.

Modelling conventions.

* A task record is the JSON object the server sends; `notification_time` is
  held as the time value (milliseconds since the epoch, an integer) that
  `new Date(task.notification_time)` yields.  Records whose time does not
  parse (an Invalid Date) are outside the model.
* Identifiers are JSON primitives (a number or a string); `===` on them is
  structural equality without coercion, so `1 === "1"` is false.
* Everything the component does to the outside world (console, `Alert`,
  `fetch`, `Notifications.scheduleNotificationAsync`) is recorded, in program
  order, as a list of `Effect`s.  What the outside world answers is an
  explicit parameter (`Env`).
* The parsed body of `GET /api/tasks` is told apart as far as `fetchTasks`
  does: an array whose entries are task records or JSON scalars, a string, or
  a value `for...of` cannot iterate (an object, a number, a boolean, `null`).
  Arrays that hold nested arrays or objects other than task records are
  outside the model.
* The push handlers and their updaters are modelled on the states of the data
  model, in which `tasks` holds an array of task records (`AppState`);
  `fetchTasks` and `handleAddTask`, which never inspect `tasks`, are modelled
  on every value `setTasks` can have been given (`RawState`).
* The wall clock is read once per handler run (`Env.now`).
-/

namespace Notify

/-! ## Data model -/

/-- A task identifier as it arrives in a JSON payload. -/
inductive Ident where
  | num (n : Int)
  | str (s : String)
  deriving DecidableEq, Repr

/-- A task record (`id`, `title`, `task_type`, `reminder_text`,
`notification_time`), the latter as a time value in milliseconds. -/
structure Task where
  id : Ident
  title : String
  task_type : String
  reminder_text : String
  notification_time : Int
  deriving DecidableEq, Repr

/-- A JSON value that is neither an array nor an object. -/
inductive Scalar where
  | null
  | bool (b : Bool)
  | num (n : Int)
  | str (s : String)
  deriving DecidableEq, Repr

/-- An entry of a JSON array: a task record or a scalar. -/
inductive Item where
  | record (task : Task)
  | scalar (v : Scalar)
  deriving DecidableEq, Repr

/-- A value the state variable `tasks` can hold: what `useState([])` or a
`setTasks` call put there. -/
inductive TasksValue where
  | array (items : List Item)
  | text (s : String)
  deriving DecidableEq, Repr

/-- The array of the given task records. -/
def TasksValue.ofTasks (l : List Task) : TasksValue :=
  TasksValue.array (l.map Item.record)

/-- The values `for (const task of data)` visits: the entries of an array, the
code points of a string (each a one-character string). -/
def TasksValue.iterate : TasksValue → List Item
  | TasksValue.array items => items
  | TasksValue.text s => s.data.map (fun c => Item.scalar (Scalar.str (String.singleton c)))

/-- The value `response.json()` resolves to for `GET /api/tasks`. -/
inductive Body where
  /-- An array or a string. -/
  | iterable (data : TasksValue)
  /-- An object, a number, a boolean or `null`. -/
  | notIterable
  deriving DecidableEq, Repr

/-! ## `Array.prototype.sort` with a comparator -/

/-- The comparator of line 67:
`(a, b) => new Date(a.notification_time) - new Date(b.notification_time)`. -/
def compareByTime (a b : Task) : Int :=
  a.notification_time - b.notification_time

/-- Models `Array.prototype.sort(cmp)`: a stable sort in which `a` stays before `b`
whenever `cmp(a, b) ≤ 0`.  Stability makes the result unique for a consistent
comparator, so one stable algorithm describes every conforming engine. -/
def jsSort {α : Type} (cmp : α → α → Int) (l : List α) : List α :=
  List.insertionSort (fun a b => cmp a b ≤ 0) l

/-! ## The outside world -/

/-- The argument of `Notifications.scheduleNotificationAsync` (lines 144-150):
`content.title`, `content.body` and `trigger`. -/
structure NotificationRequest where
  title : String
  body : String
  trigger : Int
  deriving DecidableEq, Repr

/-- The JSON body of `POST /api/tasks` (lines 232-237). -/
structure TaskForm where
  title : String
  taskType : String
  notificationTime : Int
  reminderText : String
  deriving DecidableEq, Repr

/-- What a `fetch` followed by `response.json()` can come to. -/
inductive FetchResult (α : Type) where
  /-- The `fetch` call itself rejects. -/
  | networkError
  /-- The response arrives and `response.ok` is false. -/
  | httpError (status : Nat)
  /-- The status is a success and `response.json()` rejects. -/
  | malformedBody
  /-- A success status and a body that parses to `data`. -/
  | ok (data : α)
  deriving DecidableEq, Repr

/-- An observable action of the component.  Console output is identified by
its fixed leading text; interpolated values are dropped. -/
inductive Effect where
  | consoleLog (text : String)
  | consoleError (text : String)
  /-- A call `Alert.alert(title, message)`. -/
  | alert (title message : String)
  /-- A call `fetch(API_URL + path)`. -/
  | fetchGet (path : String)
  /-- A call `fetch(API_URL + path, ...)` with method POST and the given JSON body. -/
  | fetchPost (path : String) (body : TaskForm)
  /-- A call of `Notifications.scheduleNotificationAsync`. -/
  | scheduleNotificationAsync (request : NotificationRequest)
  deriving DecidableEq, Repr

/-- The answers of the host: the wall clock read by `new Date()`, whether the
notification service resolves (`true`) or rejects (`false`) a request, and
the server's responses. -/
structure Env where
  now : Int
  scheduleResolves : NotificationRequest → Bool
  getTasks : FetchResult Body
  postTasks : TaskForm → FetchResult Task

/-- The part of the component state the modelled functions read or write
(`tasks`, `title`, `taskType`, `reminderText`, `date`, `loading`), in the
states where `tasks` holds an array of task records. -/
structure AppState where
  tasks : List Task
  title : String
  taskType : String
  reminderText : String
  date : Int
  loading : Bool
  deriving DecidableEq, Repr

/-- The same part of the component state, with `tasks` holding whatever value
it was given. -/
structure RawState where
  tasks : TasksValue
  title : String
  taskType : String
  reminderText : String
  date : Int
  loading : Bool
  deriving DecidableEq, Repr

/-- A state of the data model as a raw state. -/
def AppState.toRaw (s : AppState) : RawState :=
  { tasks := TasksValue.ofTasks s.tasks, title := s.title, taskType := s.taskType,
    reminderText := s.reminderText, date := s.date, loading := s.loading }

/-- The state `useState` sets up at line 22-28, with the clock reading used
for `date`. -/
def initialState (now : Int) : AppState :=
  { tasks := [], title := "", taskType := "Work", reminderText := "", date := now,
    loading := false }

/-! ## `scheduleNotification` (lines 136-158) -/

/-- The effects of one call `scheduleNotification(task)`. -/
def scheduleNotification (env : Env) (task : Task) : List Effect :=
  let trigger := task.notification_time
  let currentTime := env.now
  if trigger > currentTime then
    let request : NotificationRequest :=
      { title := task.title, body := task.reminder_text, trigger := trigger }
    [Effect.consoleLog "Scheduling notification for task:",
     Effect.scheduleNotificationAsync request] ++
      (if env.scheduleResolves request then
        [Effect.consoleLog "Notification scheduled successfully"]
      else
        [Effect.consoleError "Error scheduling notification:"])
  else
    [Effect.consoleLog "Skipping notification for past task:"]

/-- The effects of one call `scheduleNotification(task)` on an arbitrary array
entry.  On `null` the read of `task.notification_time` throws inside the
`try` and is caught; on any other scalar the property is `undefined`, the
date is invalid and the comparison `trigger > currentTime` is false. -/
def scheduleNotificationItem (env : Env) : Item → List Effect
  | Item.record task => scheduleNotification env task
  | Item.scalar Scalar.null => [Effect.consoleError "Error scheduling notification:"]
  | Item.scalar _ => [Effect.consoleLog "Skipping notification for past task:"]

/-- The requests handed to the notification service within a trace. -/
def notificationRequests : List Effect → List NotificationRequest
  | [] => []
  | Effect.scheduleNotificationAsync request :: rest => request :: notificationRequests rest
  | _ :: rest => notificationRequests rest

/-- The HTTP requests issued within a trace. -/
def httpRequests : List Effect → List Effect
  | [] => []
  | Effect.fetchGet path :: rest => Effect.fetchGet path :: httpRequests rest
  | Effect.fetchPost path body :: rest => Effect.fetchPost path body :: httpRequests rest
  | _ :: rest => httpRequests rest

/-- The alerts shown within a trace. -/
def alerts : List Effect → List Effect
  | [] => []
  | Effect.alert title message :: rest => Effect.alert title message :: alerts rest
  | _ :: rest => alerts rest

/-! ## The push-event handlers (lines 55-75) -/

/-- What running a `setTasks` updater comes to: the list it returns and the
tasks it called `scheduleNotification` on, in call order. -/
structure UpdaterResult where
  tasks : List Task
  scheduled : List Task
  deriving DecidableEq, Repr

/-- The updater passed to `setTasks` by the `new_task` handler (lines 57-69). -/
def newTaskUpdater (newTask : Task) (currentTasks : List Task) : UpdaterResult :=
  let «exists» := currentTasks.any (fun task => decide (task.id = newTask.id))
  if «exists» then
    { tasks := currentTasks, scheduled := [] }
  else
    let updatedTasks := jsSort compareByTime (currentTasks ++ [newTask])
    { tasks := updatedTasks, scheduled := [newTask] }

/-- The list `newTaskUpdater` returns: the spec's `applyCreate`. -/
def applyCreate (newTask : Task) (currentTasks : List Task) : List Task :=
  (newTaskUpdater newTask currentTasks).tasks

/-- The updater passed to `setTasks` by the `delete_task` handler (line 74):
the spec's `applyDelete`. -/
def applyDelete (id : Ident) (currentTasks : List Task) : List Task :=
  currentTasks.filter (fun task => decide (task.id ≠ id))

/-- The `new_task` handler (lines 55-70). -/
def onNewTask (env : Env) (newTask : Task) (s : AppState) : AppState × List Effect :=
  let r := newTaskUpdater newTask s.tasks
  ({ s with tasks := r.tasks },
   Effect.consoleLog "Received new task:" :: r.scheduled.flatMap (scheduleNotification env))

/-- The `delete_task` handler (lines 72-75). -/
def onDeleteTask (id : Ident) (s : AppState) : AppState × List Effect :=
  ({ s with tasks := applyDelete id s.tasks }, [Effect.consoleLog "Task deleted:"])

/-! ## `fetchTasks` (lines 111-134) -/

/-- The effects and the resulting state of `fetchTasks()`.  A body that can
be iterated is handed to `setTasks` as it is (line 126); one that cannot makes
`for...of` throw into the `catch` of line 127. -/
def fetchTasks (env : Env) (s : RawState) : RawState × List Effect :=
  let request := [Effect.consoleLog "Fetching tasks from:", Effect.fetchGet "/api/tasks"]
  match env.getTasks with
  | FetchResult.ok (Body.iterable data) =>
    ({ s with tasks := data },
     request ++ Effect.consoleLog "Fetched tasks:" ::
       data.iterate.flatMap (scheduleNotificationItem env))
  | FetchResult.ok Body.notIterable =>
    (s,
     request ++ [Effect.consoleLog "Fetched tasks:", Effect.consoleError "Error fetching tasks:",
       Effect.alert "Error"
         "Failed to fetch tasks. Please check if the server is running and try again."])
  | _ =>
    (s,
     request ++ [Effect.consoleError "Error fetching tasks:",
       Effect.alert "Error"
         "Failed to fetch tasks. Please check if the server is running and try again."])

/-! ## `handleAddTask` (lines 213-264) -/

/-- ECMAScript `WhiteSpace` and `LineTerminator` code points, the ones
`String.prototype.trim` strips. -/
def isWhiteSpace (c : Char) : Bool :=
  let n := c.toNat
  n == 0x9 || n == 0xA || n == 0xB || n == 0xC || n == 0xD || n == 0x20 || n == 0xA0 ||
  n == 0x1680 || (0x2000 ≤ n && n ≤ 0x200A) || n == 0x2028 || n == 0x2029 || n == 0x202F ||
  n == 0x205F || n == 0x3000 || n == 0xFEFF

/-- Models `String.prototype.trim`: strips white space from both ends. -/
def jsTrim (s : String) : String :=
  ⟨((s.data.dropWhile isWhiteSpace).reverse.dropWhile isWhiteSpace).reverse⟩

/-- Models `!s` for a string `s`: only the empty string is falsy. -/
def jsNot (s : String) : Bool :=
  s.data.isEmpty

/-- The effects and the resulting state of `handleAddTask()`. -/
def handleAddTask (env : Env) (s : RawState) : RawState × List Effect :=
  if jsNot (jsTrim s.title) then
    (s, [Effect.alert "Error" "Please enter a task title"])
  else if jsNot (jsTrim s.reminderText) then
    (s, [Effect.alert "Error" "Please enter a reminder message"])
  else
    let body : TaskForm :=
      { title := jsTrim s.title, taskType := s.taskType, notificationTime := s.date,
        reminderText := jsTrim s.reminderText }
    let request := [Effect.consoleLog "Adding task to:", Effect.fetchPost "/api/tasks" body]
    match env.postTasks body with
    | FetchResult.ok newTask =>
      let fetched := fetchTasks env { s with loading := true }
      ({ fetched.1 with title := "", reminderText := "", date := env.now, loading := false },
       request ++ Effect.consoleLog "Added task:" :: scheduleNotification env newTask ++
         fetched.2 ++ [Effect.alert "Success" "Task added successfully"])
    | _ =>
      ({ s with loading := false },
       request ++ [Effect.consoleError "Error adding task:",
         Effect.alert "Error"
           "Failed to add task. Please check if the server is running and try again."])

/-! ## Predicates and runs -/

/-- The list is in ascending order of notification time. -/
def SortedByTime (l : List Task) : Prop :=
  List.Sorted (fun a b => a.notification_time ≤ b.notification_time) l

instance (l : List Task) : Decidable (SortedByTime l) := by
  unfold SortedByTime List.Sorted
  infer_instance

/-- Identifiers are pairwise distinct within the list. -/
def UniqueIds (l : List Task) : Prop :=
  (l.map (fun task => task.id)).Nodup

instance (l : List Task) : Decidable (UniqueIds l) := by
  unfold UniqueIds
  infer_instance

/-- A push event as delivered on the live channel. -/
inductive PushEvent where
  | new_task (newTask : Task)
  | delete_task (id : Ident)
  deriving DecidableEq, Repr

/-- The list after one push event. -/
def applyPush (currentTasks : List Task) : PushEvent → List Task
  | .new_task newTask => applyCreate newTask currentTasks
  | .delete_task id => applyDelete id currentTasks

/-- The list after a sequence of push events, starting from `useState([])`. -/
def runPush (events : List PushEvent) : List Task :=
  events.foldl applyPush []

/-- A host whose clock reads 100, whose notification service rejects every
request and whose server is unreachable. -/
def sampleEnv : Env :=
  { now := 100, scheduleResolves := fun _ => false, getTasks := FetchResult.networkError,
    postTasks := fun _ => FetchResult.networkError }

/-- A state of the data model whose list holds one task, due at 9. -/
def sampleState : AppState :=
  { tasks := [⟨.num 1, "a", "Work", "r", 9⟩], title := "", taskType := "Work",
    reminderText := "", date := 7, loading := false }

/-! ## Lemmas on the comparator and the sort -/

instance compareByTime_total : IsTotal Task (fun a b => compareByTime a b ≤ 0) :=
  ⟨fun a b => by unfold compareByTime; omega⟩

instance compareByTime_trans : IsTrans Task (fun a b => compareByTime a b ≤ 0) :=
  ⟨fun a b c hab hbc => by unfold compareByTime at *; omega⟩

theorem compareByTime_le_iff (a b : Task) :
    compareByTime a b ≤ 0 ↔ a.notification_time ≤ b.notification_time := by
  unfold compareByTime; omega

theorem sortedByTime_iff (l : List Task) :
    SortedByTime l ↔ List.Sorted (fun a b => compareByTime a b ≤ 0) l := by
  unfold SortedByTime List.Sorted
  constructor <;> intro h <;> refine h.imp ?_ <;> intro a b hab
  · exact (compareByTime_le_iff a b).2 hab
  · exact (compareByTime_le_iff a b).1 hab

theorem jsSort_perm (l : List Task) : (jsSort compareByTime l).Perm l :=
  List.perm_insertionSort _ l

theorem jsSort_sorted (l : List Task) : SortedByTime (jsSort compareByTime l) :=
  (sortedByTime_iff _).2 (List.sorted_insertionSort _ l)

theorem mem_jsSort (l : List Task) (x : Task) : x ∈ jsSort compareByTime l ↔ x ∈ l :=
  (jsSort_perm l).mem_iff

/-! ## Lemmas on the updaters -/

theorem applyCreate_of_present (t : Task) (L : List Task)
    (h : L.any (fun task => decide (task.id = t.id)) = true) : applyCreate t L = L := by
  simp only [applyCreate, newTaskUpdater, h, if_true]

theorem applyCreate_of_absent (t : Task) (L : List Task)
    (h : L.any (fun task => decide (task.id = t.id)) = false) :
    applyCreate t L = jsSort compareByTime (L ++ [t]) := by
  simp [applyCreate, newTaskUpdater, h]

theorem any_id_eq_false_iff (t : Task) (L : List Task) :
    L.any (fun task => decide (task.id = t.id)) = false ↔ ∀ x ∈ L, x.id ≠ t.id := by
  simp [List.any_eq_false]

theorem applyCreate_sorted (t : Task) (L : List Task) (h : SortedByTime L) :
    SortedByTime (applyCreate t L) := by
  cases hany : L.any (fun task => decide (task.id = t.id))
  · rw [applyCreate_of_absent t L hany]; exact jsSort_sorted _
  · rw [applyCreate_of_present t L hany]; exact h

theorem applyDelete_sorted (id : Ident) (L : List Task) (h : SortedByTime L) :
    SortedByTime (applyDelete id L) :=
  List.Sorted.filter _ h

theorem applyCreate_unique (t : Task) (L : List Task) (h : UniqueIds L) :
    UniqueIds (applyCreate t L) := by
  cases hany : L.any (fun task => decide (task.id = t.id))
  · rw [applyCreate_of_absent t L hany]
    have hperm : (jsSort compareByTime (L ++ [t])).Perm (t :: L) :=
      (jsSort_perm _).trans (List.perm_append_singleton t L)
    unfold UniqueIds at *
    rw [(hperm.map _).nodup_iff, List.map_cons, List.nodup_cons]
    refine ⟨?_, h⟩
    intro hmem
    obtain ⟨x, hx, hxid⟩ := List.mem_map.1 hmem
    exact (any_id_eq_false_iff t L).1 hany x hx hxid
  · rw [applyCreate_of_present t L hany]; exact h

theorem applyDelete_unique (id : Ident) (L : List Task) (h : UniqueIds L) :
    UniqueIds (applyDelete id L) := by
  unfold UniqueIds at *
  exact h.sublist ((List.filter_sublist _).map _)

theorem foldl_applyPush_invariant (P : List Task → Prop)
    (hc : ∀ t L, P L → P (applyCreate t L)) (hd : ∀ id L, P L → P (applyDelete id L))
    (events : List PushEvent) : ∀ L, P L → P (events.foldl applyPush L) := by
  induction events with
  | nil => intro L h; exact h
  | cons e rest ih =>
    intro L h
    rw [List.foldl_cons]
    apply ih
    cases e with
    | new_task t => exact hc t L h
    | delete_task id => exact hd id L h

/-! ## Lemmas on `trim` and on traces -/

theorem jsNot_jsTrim_iff (s : String) :
    jsNot (jsTrim s) = true ↔ ∀ c ∈ s.data, isWhiteSpace c = true := by
  unfold jsNot jsTrim
  simp only [List.isEmpty_iff, List.reverse_eq_nil_iff]
  constructor
  · intro h
    rw [List.dropWhile_eq_nil_iff] at h
    have hall : ∀ c ∈ s.data.dropWhile isWhiteSpace, isWhiteSpace c = true := by
      intro c hc
      exact h c (List.mem_reverse.2 hc)
    have hnil : s.data.dropWhile isWhiteSpace = [] := by
      cases hd : s.data.dropWhile isWhiteSpace with
      | nil => rfl
      | cons a rest =>
        exfalso
        have hhead := List.head_dropWhile_not isWhiteSpace s.data (by rw [hd]; simp)
        have ha : isWhiteSpace a = true := hall a (by rw [hd]; simp)
        simp [hd, ha] at hhead
    exact List.dropWhile_eq_nil_iff.1 hnil
  · intro h
    rw [List.dropWhile_eq_nil_iff.2 h]
    rfl

theorem notificationRequests_append (xs ys : List Effect) :
    notificationRequests (xs ++ ys) = notificationRequests xs ++ notificationRequests ys := by
  induction xs with
  | nil => rfl
  | cons x rest ih => cases x <;> simp [notificationRequests, ih]

theorem alerts_append (xs ys : List Effect) : alerts (xs ++ ys) = alerts xs ++ alerts ys := by
  induction xs with
  | nil => rfl
  | cons x rest ih => cases x <;> simp [alerts, ih]

theorem alerts_scheduleNotification (env : Env) (t : Task) :
    alerts (scheduleNotification env t) = [] := by
  unfold scheduleNotification
  by_cases h : t.notification_time > env.now
  · simp only [h, if_true]
    split <;> rfl
  · simp only [h, if_false]
    rfl

theorem alerts_scheduleNotificationItem (env : Env) (item : Item) :
    alerts (scheduleNotificationItem env item) = [] := by
  cases item with
  | record task => exact alerts_scheduleNotification env task
  | scalar v => cases v <;> rfl

theorem alerts_flatMap_scheduleNotificationItem (env : Env) (items : List Item) :
    alerts (items.flatMap (scheduleNotificationItem env)) = [] := by
  induction items with
  | nil => rfl
  | cons d rest ih =>
    rw [List.flatMap_cons, alerts_append, alerts_scheduleNotificationItem, ih]
    rfl

theorem fetchTasks_of_iterable (env : Env) (s : RawState) (data : TasksValue)
    (h : env.getTasks = FetchResult.ok (Body.iterable data)) :
    fetchTasks env s =
      ({ s with tasks := data },
       [Effect.consoleLog "Fetching tasks from:", Effect.fetchGet "/api/tasks",
        Effect.consoleLog "Fetched tasks:"] ++
         data.iterate.flatMap (scheduleNotificationItem env)) := by
  unfold fetchTasks
  rw [h]
  rfl

/-! ## The claims -/

/-- C1: `applyCreate` is idempotent: for every task list and every task
record, applying the record a second time returns the list the first
application returned. -/
theorem applyCreate_idempotent (L : List Task) (t : Task) :
    applyCreate t (applyCreate t L) = applyCreate t L := by
  cases hany : L.any (fun task => decide (task.id = t.id))
  · rw [applyCreate_of_absent t L hany]
    apply applyCreate_of_present
    rw [List.any_eq_true]
    exact ⟨t, (mem_jsSort _ t).2 (by simp), by simp⟩
  · rw [applyCreate_of_present t L hany, applyCreate_of_present t L hany]

/-- C2: starting from the empty list, after every finite sequence of
`applyCreate` and `applyDelete` operations the list is in ascending order of
notification time. -/
theorem runPush_sorted (events : List PushEvent) : SortedByTime (runPush events) :=
  foldl_applyPush_invariant SortedByTime applyCreate_sorted applyDelete_sorted events []
    List.sorted_nil

/-- C3: when no task of the list carries the identifier, `applyDelete` returns
the list itself, and the `delete_task` handler leaves the whole state as it
was, its only effect being the console line (no alert, no error output). -/
theorem applyDelete_absent (L : List Task) (id : Ident) (h : ∀ task ∈ L, task.id ≠ id) :
    applyDelete id L = L ∧
    ∀ s : AppState, s.tasks = L →
      onDeleteTask id s = (s, [Effect.consoleLog "Task deleted:"]) := by
  have hL : applyDelete id L = L := by
    unfold applyDelete
    rw [List.filter_eq_self]
    intro a ha
    simpa using h a ha
  refine ⟨hL, ?_⟩
  intro s hs
  subst hs
  simp [onDeleteTask, hL]

theorem applyDelete_absent_witness :
    (∀ task ∈ [(⟨.num 1, "a", "Work", "r", 9⟩ : Task), ⟨.num 2, "b", "Work", "q", 3⟩],
      task.id ≠ .num 5) ∧
    applyDelete (.num 5) [⟨.num 1, "a", "Work", "r", 9⟩, ⟨.num 2, "b", "Work", "q", 3⟩]
      = [⟨.num 1, "a", "Work", "r", 9⟩, ⟨.num 2, "b", "Work", "q", 3⟩] :=
  ⟨by decide,
   (applyDelete_absent [⟨.num 1, "a", "Work", "r", 9⟩, ⟨.num 2, "b", "Work", "q", 3⟩] (.num 5)
    (by decide)).1⟩

/-- C9: the push-event updaters keep identifiers pairwise distinct, and so
every list reached from the empty list by `applyCreate` and `applyDelete` has
pairwise distinct identifiers. -/
theorem updaters_keep_ids_unique :
    (∀ (L : List Task) (t : Task) (id : Ident), UniqueIds L →
      UniqueIds (applyCreate t L) ∧ UniqueIds (applyDelete id L)) ∧
    ∀ events : List PushEvent, UniqueIds (runPush events) :=
  ⟨fun L t id h => ⟨applyCreate_unique t L h, applyDelete_unique id L h⟩,
   fun events => foldl_applyPush_invariant UniqueIds applyCreate_unique applyDelete_unique
     events [] List.nodup_nil⟩

theorem updaters_keep_ids_unique_witness :
    UniqueIds [⟨.num 1, "a", "Work", "r", 9⟩] ∧
    UniqueIds (applyCreate ⟨.num 1, "dup", "Work", "x", 2⟩ [⟨.num 1, "a", "Work", "r", 9⟩]) ∧
    UniqueIds (applyDelete (.num 1) [⟨.num 1, "a", "Work", "r", 9⟩]) :=
  have h : UniqueIds [⟨.num 1, "a", "Work", "r", 9⟩] := by decide
  ⟨h, updaters_keep_ids_unique.1 [⟨.num 1, "a", "Work", "r", 9⟩]
    ⟨.num 1, "dup", "Work", "x", 2⟩ (.num 1) h⟩

/-- C4: for a list sorted by notification time and a task whose identifier
does not occur in it, `applyCreate` returns a permutation of the list with the
task added (one longer, every old task kept, the old tasks in their old
order) that is sorted by notification time; and creating task 1 and then a
task 2 with an earlier time, from the empty list, gives `[task2, task1]`. -/
theorem applyCreate_fresh :
    (∀ (L : List Task) (t : Task), SortedByTime L → (∀ x ∈ L, x.id ≠ t.id) →
      (applyCreate t L).Perm (t :: L) ∧ (applyCreate t L).length = L.length + 1 ∧
      (∀ x ∈ L, x ∈ applyCreate t L) ∧ L.Sublist (applyCreate t L) ∧
      SortedByTime (applyCreate t L)) ∧
    (∀ task1 task2 : Task, task1.id = Ident.num 1 → task2.id = Ident.num 2 →
      task2.notification_time < task1.notification_time →
      applyCreate task2 (applyCreate task1 []) = [task2, task1]) := by
  constructor
  · intro L t hs hid
    have hany := (any_id_eq_false_iff t L).2 hid
    have hperm : (applyCreate t L).Perm (t :: L) := by
      rw [applyCreate_of_absent t L hany]
      exact (jsSort_perm _).trans (List.perm_append_singleton t L)
    refine ⟨hperm, ?_, ?_, ?_, applyCreate_sorted t L hs⟩
    · simpa using hperm.length_eq
    · intro x hx
      exact hperm.mem_iff.2 (List.mem_cons_of_mem _ hx)
    · rw [applyCreate_of_absent t L hany]
      exact List.sublist_insertionSort ((sortedByTime_iff L).1 hs)
        (List.sublist_append_left L [t])
  · intro task1 task2 h1 h2 hlt
    have hne : ¬ task1.id = task2.id := by rw [h1, h2]; decide
    have hcmp : ¬ compareByTime task1 task2 ≤ 0 := by
      rw [compareByTime_le_iff]; omega
    simp [applyCreate, newTaskUpdater, jsSort, hne, hcmp]

theorem applyCreate_fresh_witness :
    SortedByTime [⟨.num 1, "a", "Work", "r", 9⟩] ∧
    (applyCreate ⟨.num 2, "b", "Work", "q", 5⟩ [⟨.num 1, "a", "Work", "r", 9⟩]).length = 2 ∧
    applyCreate ⟨.num 2, "b", "Work", "q", 5⟩ (applyCreate ⟨.num 1, "a", "Work", "r", 9⟩ [])
      = [⟨.num 2, "b", "Work", "q", 5⟩, ⟨.num 1, "a", "Work", "r", 9⟩] :=
  have hs : SortedByTime [⟨.num 1, "a", "Work", "r", 9⟩] := by decide
  ⟨hs,
   (applyCreate_fresh.1 [⟨.num 1, "a", "Work", "r", 9⟩] ⟨.num 2, "b", "Work", "q", 5⟩ hs
     (by decide)).2.1,
   applyCreate_fresh.2 ⟨.num 1, "a", "Work", "r", 9⟩ ⟨.num 2, "b", "Work", "q", 5⟩ rfl rfl
     (by decide)⟩

/-- C5: one call of `scheduleNotification` hands the notification service
exactly one request when the task's notification time is strictly after the
clock reading, with the task's title as title, its reminder text as body and
its notification time as trigger, and hands it none when the time is at or
before the clock reading; this whatever the service answers. -/
theorem scheduleNotification_requests (env : Env) (t : Task) :
    (t.notification_time > env.now →
      notificationRequests (scheduleNotification env t) =
        [{ title := t.title, body := t.reminder_text, trigger := t.notification_time }]) ∧
    (t.notification_time ≤ env.now →
      notificationRequests (scheduleNotification env t) = []) := by
  constructor
  · intro h
    unfold scheduleNotification
    simp only [h, if_true]
    split <;> rfl
  · intro h
    unfold scheduleNotification
    have h2 : ¬ t.notification_time > env.now := by omega
    simp only [h2, if_false]
    rfl

theorem scheduleNotification_requests_witness :
    notificationRequests (scheduleNotification sampleEnv ⟨.num 1, "a", "Work", "r", 101⟩)
      = [{ title := "a", body := "r", trigger := 101 }] ∧
    notificationRequests (scheduleNotification sampleEnv ⟨.num 1, "a", "Work", "r", 100⟩) = [] :=
  have h₁ : (⟨.num 1, "a", "Work", "r", 101⟩ : Task).notification_time > sampleEnv.now := by
    decide
  have h₂ : (⟨.num 1, "a", "Work", "r", 100⟩ : Task).notification_time ≤ sampleEnv.now := by
    decide
  ⟨(scheduleNotification_requests sampleEnv ⟨.num 1, "a", "Work", "r", 101⟩).1 h₁,
   (scheduleNotification_requests sampleEnv ⟨.num 1, "a", "Work", "r", 100⟩).2 h₂⟩

/-- C6: when the title is empty or all white space, or the reminder text is
empty or all white space, `handleAddTask` leaves the state (the task list
included) as it was, issues no HTTP request and no notification request, and
its whole effect is one validation alert. -/
theorem handleAddTask_blank_field (env : Env) (s : RawState)
    (h : (∀ c ∈ s.title.data, isWhiteSpace c = true) ∨
      (∀ c ∈ s.reminderText.data, isWhiteSpace c = true)) :
    (handleAddTask env s).1 = s ∧
    httpRequests (handleAddTask env s).2 = [] ∧
    notificationRequests (handleAddTask env s).2 = [] ∧
    ((handleAddTask env s).2 = [Effect.alert "Error" "Please enter a task title"] ∨
     (handleAddTask env s).2 = [Effect.alert "Error" "Please enter a reminder message"]) := by
  unfold handleAddTask
  cases ht : jsNot (jsTrim s.title)
  · have hr : jsNot (jsTrim s.reminderText) = true := by
      rcases h with h | h
      · rw [(jsNot_jsTrim_iff s.title).2 h] at ht; cases ht
      · exact (jsNot_jsTrim_iff s.reminderText).2 h
    simp [hr, httpRequests, notificationRequests]
  · simp [httpRequests, notificationRequests]

theorem handleAddTask_blank_field_witness :
    (handleAddTask sampleEnv
      { tasks := TasksValue.ofTasks [⟨.num 1, "a", "Work", "r", 9⟩], title := " \t",
        taskType := "Work", reminderText := "call", date := 7, loading := false }).2
      = [Effect.alert "Error" "Please enter a task title"] ∨
    (handleAddTask sampleEnv
      { tasks := TasksValue.ofTasks [⟨.num 1, "a", "Work", "r", 9⟩], title := " \t",
        taskType := "Work", reminderText := "call", date := 7, loading := false }).2
      = [Effect.alert "Error" "Please enter a reminder message"] :=
  (handleAddTask_blank_field sampleEnv
    { tasks := TasksValue.ofTasks [⟨.num 1, "a", "Work", "r", 9⟩], title := " \t",
      taskType := "Work", reminderText := "call", date := 7, loading := false }
    (Or.inl (by decide))).2.2.2

/-- C7, the claim as stated, fails: with the list holding one task, a success
response whose body is the JSON string `abc`, or the array `[null]`, neither
of them a task sequence, is installed in place of the list and no alert is
shown. -/
theorem fetchTasks_installs_malformed_body :
    ((fetchTasks { sampleEnv with getTasks := FetchResult.ok (Body.iterable (TasksValue.text "abc")) }
        sampleState.toRaw).1.tasks
        = TasksValue.text "abc" ∧
      TasksValue.text "abc" ≠ TasksValue.ofTasks [⟨.num 1, "a", "Work", "r", 9⟩] ∧
      (∀ D : List Task, TasksValue.text "abc" ≠ TasksValue.ofTasks D) ∧
      alerts (fetchTasks
        { sampleEnv with getTasks := FetchResult.ok (Body.iterable (TasksValue.text "abc")) }
        sampleState.toRaw).2 = []) ∧
    ((fetchTasks
        { sampleEnv with
          getTasks := FetchResult.ok (Body.iterable (TasksValue.array [Item.scalar Scalar.null])) }
        sampleState.toRaw).1.tasks
        = TasksValue.array [Item.scalar Scalar.null] ∧
      (∀ D : List Task, TasksValue.array [Item.scalar Scalar.null] ≠ TasksValue.ofTasks D) ∧
      alerts (fetchTasks
        { sampleEnv with
          getTasks := FetchResult.ok (Body.iterable (TasksValue.array [Item.scalar Scalar.null])) }
        sampleState.toRaw).2 = []) := by
  refine ⟨⟨rfl, by decide, ?_, by decide⟩, ⟨rfl, ?_, by decide⟩⟩
  · intro D h
    cases h
  · intro D h
    unfold TasksValue.ofTasks at h
    cases D with
    | nil => cases h
    | cons d rest => cases h

/-- C7, amended: `fetchTasks` leaves the state as it was and shows one alert
when the fetch rejects, answers with a non-success status, has a body that
does not parse, or has a body that parses to a value that cannot be iterated;
when the response is a success whose body parses to an array or a string,
that value is installed as the list as it is, nothing else in the state
changes and no alert is shown, so for a task sequence `D` the list becomes
exactly `D`, whatever the previous list was and whatever the notification
service answers to the scheduling requests. -/
theorem fetchTasks_outcomes (env : Env) (s : RawState) :
    ((env.getTasks = FetchResult.networkError ∨
        (∃ status, env.getTasks = FetchResult.httpError status) ∨
        env.getTasks = FetchResult.malformedBody ∨
        env.getTasks = FetchResult.ok Body.notIterable) →
      (fetchTasks env s).1 = s ∧
      alerts (fetchTasks env s).2 = [Effect.alert "Error"
        "Failed to fetch tasks. Please check if the server is running and try again."]) ∧
    (∀ data : TasksValue, env.getTasks = FetchResult.ok (Body.iterable data) →
      (fetchTasks env s).1 = { s with tasks := data } ∧
      alerts (fetchTasks env s).2 = []) ∧
    (∀ D : List Task, env.getTasks = FetchResult.ok (Body.iterable (TasksValue.ofTasks D)) →
      (fetchTasks env s).1.tasks = TasksValue.ofTasks D ∧
      alerts (fetchTasks env s).2 = []) := by
  have hok : ∀ data : TasksValue, env.getTasks = FetchResult.ok (Body.iterable data) →
      (fetchTasks env s).1 = { s with tasks := data } ∧
      alerts (fetchTasks env s).2 = [] := by
    intro data h
    rw [fetchTasks_of_iterable env s data h]
    refine ⟨rfl, ?_⟩
    show alerts (_ :: _ :: _ :: data.iterate.flatMap (scheduleNotificationItem env)) = []
    simp only [alerts]
    exact alerts_flatMap_scheduleNotificationItem env data.iterate
  refine ⟨?_, hok, ?_⟩
  · intro h
    unfold fetchTasks
    rcases h with h | ⟨status, h⟩ | h | h <;> rw [h] <;> exact ⟨rfl, rfl⟩
  · intro D h
    obtain ⟨h1, h2⟩ := hok _ h
    exact ⟨by rw [h1], h2⟩

theorem fetchTasks_outcomes_witness :
    (fetchTasks { sampleEnv with getTasks := FetchResult.ok Body.notIterable }
      sampleState.toRaw).1.tasks
      = TasksValue.ofTasks [⟨.num 1, "a", "Work", "r", 9⟩] ∧
    (fetchTasks
      { sampleEnv with
        getTasks := FetchResult.ok
          (Body.iterable (TasksValue.ofTasks [⟨.num 2, "b", "Work", "q", 500⟩])) }
      sampleState.toRaw).1.tasks
      = TasksValue.ofTasks [⟨.num 2, "b", "Work", "q", 500⟩] :=
  ⟨congrArg RawState.tasks
    ((fetchTasks_outcomes { sampleEnv with getTasks := FetchResult.ok Body.notIterable }
      sampleState.toRaw).1
      (Or.inr (Or.inr (Or.inr rfl)))).1,
   ((fetchTasks_outcomes
      { sampleEnv with
        getTasks := FetchResult.ok
          (Body.iterable (TasksValue.ofTasks [⟨.num 2, "b", "Work", "q", 500⟩])) }
      sampleState.toRaw).2.2
      [⟨.num 2, "b", "Work", "q", 500⟩] rfl).1⟩

/-- C8: the code at the failing input.  From the initial state, a successful
`fetchTasks` whose response lists a task due at 9 before a task due at 5
leaves the list holding them in that order, which is not ascending, while the
same two tasks delivered as `new_task` events end up in ascending order. -/
theorem fetchTasks_unordered_response :
    (fetchTasks
      { sampleEnv with
        getTasks := FetchResult.ok (Body.iterable (TasksValue.ofTasks
          [⟨.num 1, "a", "Work", "r", 9⟩, ⟨.num 2, "b", "Work", "q", 5⟩])) }
      (initialState 100).toRaw).1.tasks
      = TasksValue.ofTasks [⟨.num 1, "a", "Work", "r", 9⟩, ⟨.num 2, "b", "Work", "q", 5⟩] ∧
    ¬ SortedByTime [⟨.num 1, "a", "Work", "r", 9⟩, ⟨.num 2, "b", "Work", "q", 5⟩] ∧
    runPush [PushEvent.new_task ⟨.num 1, "a", "Work", "r", 9⟩,
        PushEvent.new_task ⟨.num 2, "b", "Work", "q", 5⟩]
      = [⟨.num 2, "b", "Work", "q", 5⟩, ⟨.num 1, "a", "Work", "r", 9⟩] := by
  refine ⟨rfl, by decide, by decide⟩

/-- C10: when the identifier of a `new_task` payload already occurs in the
list, the updater returns the list itself and calls `scheduleNotification` on
nothing, so the handler changes no state and hands the notification service
no request; when the identifier is absent, `scheduleNotification` is called
exactly once, on the payload. -/
theorem newTask_dedup (env : Env) (L : List Task) (t : Task) :
    ((∃ x ∈ L, x.id = t.id) →
      newTaskUpdater t L = { tasks := L, scheduled := [] } ∧
      ∀ s : AppState, s.tasks = L →
        onNewTask env t s = (s, [Effect.consoleLog "Received new task:"]) ∧
        notificationRequests (onNewTask env t s).2 = []) ∧
    ((∀ x ∈ L, x.id ≠ t.id) →
      (newTaskUpdater t L).scheduled = [t] ∧
      ∀ s : AppState, s.tasks = L →
        (onNewTask env t s).2 =
          Effect.consoleLog "Received new task:" :: scheduleNotification env t) := by
  constructor
  · rintro ⟨x, hx, hxid⟩
    have hany : L.any (fun task => decide (task.id = t.id)) = true := by
      rw [List.any_eq_true]; exact ⟨x, hx, by simp [hxid]⟩
    have hu : newTaskUpdater t L = { tasks := L, scheduled := [] } := by
      simp only [newTaskUpdater, hany, if_true]
    refine ⟨hu, ?_⟩
    intro s hs
    subst hs
    simp [onNewTask, hu, notificationRequests]
  · intro h
    have hany := (any_id_eq_false_iff t L).2 h
    have hu : (newTaskUpdater t L).scheduled = [t] := by
      simp [newTaskUpdater, hany]
    refine ⟨hu, ?_⟩
    intro s hs
    subst hs
    simp [onNewTask, hu]

theorem newTask_dedup_witness :
    newTaskUpdater ⟨.num 1, "dup", "Work", "x", 200⟩ [⟨.num 1, "a", "Work", "r", 9⟩]
      = { tasks := [⟨.num 1, "a", "Work", "r", 9⟩], scheduled := [] } ∧
    (newTaskUpdater ⟨.num 2, "b", "Work", "q", 200⟩ [⟨.num 1, "a", "Work", "r", 9⟩]).scheduled
      = [⟨.num 2, "b", "Work", "q", 200⟩] :=
  ⟨((newTask_dedup sampleEnv [⟨.num 1, "a", "Work", "r", 9⟩]
      ⟨.num 1, "dup", "Work", "x", 200⟩).1 ⟨_, List.mem_singleton.2 rfl, rfl⟩).1,
   ((newTask_dedup sampleEnv [⟨.num 1, "a", "Work", "r", 9⟩]
      ⟨.num 2, "b", "Work", "q", 200⟩).2 (by decide)).1⟩

end Notify
